import Mathlib

/-!
Verification development for the GitHub MCP server
(`src/github-mcp-server.js`, the SSE + JSON-RPC variant).

The embedding models JavaScript strings as `List Char`, JSON values as a
mutual inductive `Json`, the global response cache as a function map from
key strings to entries, and the GitHub backend (`fetch`) as an oracle
function from requests to outcomes.  All functions are written to mirror
the structure of the JavaScript source; stateful code is embedded by
explicit state passing, and thrown JavaScript exceptions are embedded as
`Except` errors.
-/

set_option maxHeartbeats 1000000

namespace McpServer

/-- Shorthand turning a Lean string literal into the character-list
representation used throughout for JavaScript strings. -/
def strL (s : String) : List Char := s.data

/-- Left-brace character, written via its code point. -/
def lbrace : Char := '\x7b'

/-- Right-brace character, written via its code point. -/
def rbrace : Char := '\x7d'

/-- Double-quote character. -/
def dquote : Char := '\x22'

/-- Backslash character. -/
def bslash : Char := '\x5c'

mutual
/-- JSON values, the payloads exchanged with the GitHub backend. -/
inductive Json where
  | null : Json
  | bool (b : Bool) : Json
  | num (n : Int) : Json
  | str (s : List Char) : Json
  | arr (xs : JsonElems) : Json
  | obj (fs : JsonFields) : Json
deriving DecidableEq

/-- Element list of a JSON array. -/
inductive JsonElems where
  | nil : JsonElems
  | cons (j : Json) (tl : JsonElems) : JsonElems
deriving DecidableEq

/-- Field list of a JSON object (key, value pairs in insertion order). -/
inductive JsonFields where
  | nil : JsonFields
  | cons (k : List Char) (v : Json) (tl : JsonFields) : JsonFields
deriving DecidableEq
end

/-- Lowercase hexadecimal digit for a value below 16, as produced by
JavaScript's `toString(16)`. -/
def hexDigit (n : Nat) : Char :=
  if n < 10 then Char.ofNat (48 + n) else Char.ofNat (87 + n)

/-- JSON string escaping of one character, as performed by
`JSON.stringify` on the characters of a string value: quote and
backslash get two-character escapes, the five common control characters
get their short escapes, the remaining control characters become
`\u00XX`, and everything else is taken verbatim. -/
def escChar (c : Char) : List Char :=
  if c = dquote then [bslash, dquote]
  else if c = bslash then [bslash, bslash]
  else if c = '\x08' then [bslash, 'b']
  else if c = '\x0c' then [bslash, 'f']
  else if c = '\n' then [bslash, 'n']
  else if c = '\r' then [bslash, 'r']
  else if c = '\t' then [bslash, 't']
  else if c.toNat < 32 then
    [bslash, 'u', '0', '0', hexDigit (c.toNat / 16), hexDigit (c.toNat % 16)]
  else [c]

/-- JSON string escaping of a whole string (`JSON.stringify` body of a
string literal, without the surrounding quotes). -/
def jsonEscStr : List Char → List Char
  | [] => []
  | c :: r => escChar c ++ jsonEscStr r

/-- Integer rendering used when a JSON number is serialized or
interpolated into a template string. -/
def intStr (n : Int) : List Char := (toString n).data

mutual
/-- Serialization `JSON.stringify` restricted to defined values
(fields holding `undefined` never occur inside a `Json`; the caller
drops them when building objects, as `JSON.stringify` does). -/
def stringifyJson : Json → List Char
  | .null => strL "null"
  | .bool true => strL "true"
  | .bool false => strL "false"
  | .num n => intStr n
  | .str s => dquote :: jsonEscStr s ++ [dquote]
  | .arr xs => '[' :: stringifyElems xs ++ [']']
  | .obj fs => lbrace :: stringifyFields fs ++ [rbrace]

/-- Serialization of array elements, comma separated. -/
def stringifyElems : JsonElems → List Char
  | .nil => []
  | .cons j .nil => stringifyJson j
  | .cons j tl => stringifyJson j ++ ',' :: stringifyElems tl

/-- Serialization of object fields, comma separated. -/
def stringifyFields : JsonFields → List Char
  | .nil => []
  | .cons k v .nil => dquote :: jsonEscStr k ++ dquote :: ':' :: stringifyJson v
  | .cons k v tl =>
      dquote :: jsonEscStr k ++ dquote :: ':' :: stringifyJson v
        ++ ',' :: stringifyFields tl
end

mutual
/-- JavaScript string conversion of a defined JSON value, as happens in
template-literal interpolation: strings verbatim, arrays joined with
commas, objects as `[object Object]`. -/
def jsToStr : Json → List Char
  | .null => strL "null"
  | .bool true => strL "true"
  | .bool false => strL "false"
  | .num n => intStr n
  | .str s => s
  | .arr xs => jsToStrElems xs
  | .obj _ => strL "[object Object]"

/-- JavaScript `Array.prototype.toString` on the elements. -/
def jsToStrElems : JsonElems → List Char
  | .nil => []
  | .cons j .nil => jsToStr j
  | .cons j tl => jsToStr j ++ ',' :: jsToStrElems tl
end

/-- Template-literal interpolation of a possibly-undefined value:
`undefined` prints as the string `undefined`. -/
def jsOptStr : Option Json → List Char
  | none => strL "undefined"
  | some j => jsToStr j

/-! ## Backend requests, the response cache, and `makeRequest` -/

/-- Options object of a backend fetch, as built by `GitHubAPIClient` in
this variant of the server: either the default empty options (all GET
requests) or the POST options of `createIssue`, carrying the fixed
JSON content-type header and a serialized body string. -/
inductive ReqOptions where
  | get : ReqOptions
  | postJson (body : List Char) : ReqOptions
deriving DecidableEq

/-- Head of `JSON.stringify` applied to the `createIssue` options
object, up to and including the opening quote of the body string. -/
def postOptsHead : List Char :=
  strL "\x7b\"method\":\"POST\",\"headers\":\x7b\"Content-Type\":\"application/json\"\x7d,\"body\":\""

/-- Serialization `JSON.stringify(options)` as it appears in the cache
key: the two-brace string for the default options, and the
method/headers/body object (with the body string escaped) for
`createIssue`. -/
def stringifyOptions : ReqOptions → List Char
  | .get => [lbrace, rbrace]
  | .postJson b => postOptsHead ++ jsonEscStr b ++ [dquote, rbrace]

/-- Base URL of the GitHub API client. -/
def baseURL : List Char := strL "https://api.github.com"

/-- Cache key of `makeRequest`: the url (base plus endpoint), an
underscore, then `JSON.stringify(options)`. -/
def cacheKey (endpoint : List Char) (options : ReqOptions) : List Char :=
  baseURL ++ endpoint ++ '_' :: stringifyOptions options

/-- Cache entry as stored by `cache.set`: data plus timestamp. -/
structure CacheEntry where
  data : Json
  timestamp : Nat
deriving DecidableEq

/-- Cache duration constant (one minute, in milliseconds). -/
def CACHE_DURATION : Nat := 60000

/-- The in-memory cache `Map`, as a function from key strings to
optional entries. -/
def CacheMap := List Char → Option CacheEntry

/-- Entry insertion, `cache.set(key, entry)`. -/
def cacheSet (c : CacheMap) (k : List Char) (e : CacheEntry) : CacheMap :=
  fun k' => if k' = k then some e else c k'

/-- Freshness test applied to a found entry:
`Date.now() - cached.timestamp < CACHE_DURATION`. -/
def cacheFresh (now : Nat) (e : CacheEntry) : Bool :=
  now - e.timestamp < CACHE_DURATION

/-- Cache read as performed at the top of `makeRequest`: the stored
value when present and fresh, otherwise nothing. -/
def cacheGet (c : CacheMap) (k : List Char) (now : Nat) : Option Json :=
  match c k with
  | some e => if cacheFresh now e then some e.data else none
  | none => none

/-- Mutable server state threaded through the embedding: the global
response cache. -/
structure St where
  cache : CacheMap

/-- Initial state: the empty cache. -/
def emptySt : St := ⟨fun _ => none⟩

/-- Outcome of one `fetch` of the GitHub API: a parsed JSON body on a
2xx response, an HTTP error status otherwise, or a transport fault
(`fetch` itself throwing). -/
inductive FetchOutcome where
  | ok (body : Json) : FetchOutcome
  | httpErr (status : Nat) (statusText : List Char) : FetchOutcome
  | networkErr (msg : List Char) : FetchOutcome
deriving DecidableEq

/-- The backend capability: the remote GitHub API as an oracle from
requests to fetch outcomes. -/
def Backend := List Char → ReqOptions → FetchOutcome

/-- JavaScript exception carrying its message, as observed by the
`catch` blocks. -/
structure JsError where
  message : List Char
deriving DecidableEq

/-- Message of the error thrown on a non-2xx response: the literal
`GitHub API error: ` followed by status and status text. -/
def apiErrMsg (status : Nat) (statusText : List Char) : List Char :=
  strL "GitHub API error: " ++ (toString status).data ++ ' ' :: statusText

/-- Embedding of `GitHubAPIClient.makeRequest`: consult the cache by the
request fingerprint; on a fresh hit return the cached data; on a miss
invoke the backend, throwing on failure (leaving the cache untouched)
and caching then returning the parsed body on success.  The third
component counts backend invocations (0 or 1). -/
def makeRequest (backend : Backend) (now : Nat) (endpoint : List Char)
    (options : ReqOptions) (st : St) : Except JsError Json × St × Nat :=
  match cacheGet st.cache (cacheKey endpoint options) now with
  | some data => (.ok data, st, 0)
  | none =>
      match backend endpoint options with
      | .ok data =>
          (.ok data, ⟨cacheSet st.cache (cacheKey endpoint options) ⟨data, now⟩⟩, 1)
      | .httpErr s t => (.error ⟨apiErrMsg s t⟩, st, 1)
      | .networkErr m => (.error ⟨m⟩, st, 1)

/-! ## JavaScript value plumbing used by the tool handlers -/

/-- Message of the `TypeError` raised when reading a property of
`undefined`. -/
def typeErrUndef (k : List Char) : JsError :=
  ⟨strL "Cannot read properties of undefined (reading '" ++ k ++ strL "')"⟩

/-- Message of the `TypeError` raised when reading a property of
`null`. -/
def typeErrNull (k : List Char) : JsError :=
  ⟨strL "Cannot read properties of null (reading '" ++ k ++ strL "')"⟩

/-- Message of the `TypeError` raised when calling `.map` on a value
that is not an array. -/
def mapNotFnErr (recv : List Char) : JsError :=
  ⟨recv ++ strL ".map is not a function"⟩

/-- Message of the `TypeError` raised by `Buffer.from` on a value that
is not a string (the model treats every non-string `content` this
way). -/
def bufferTypeErr : JsError :=
  ⟨strL "The first argument must be of type string or an instance of Buffer, ArrayBuffer, or Array or an Array-like Object."⟩

/-- Field lookup in a JSON object (keys are unique in objects produced
by `JSON.parse`). -/
def fieldLookup : JsonFields → List Char → Option Json
  | .nil, _ => none
  | .cons k v tl, f => if f = k then some v else fieldLookup tl f

/-- Property access `base.k` on a possibly-undefined JavaScript value:
throws on `undefined` and `null` bases, looks the field up on objects,
and yields `undefined` on other primitives. -/
def jsGet (base : Option Json) (k : List Char) : Except JsError (Option Json) :=
  match base with
  | none => .error (typeErrUndef k)
  | some .null => .error (typeErrNull k)
  | some (.obj fs) => .ok (fieldLookup fs k)
  | some _ => .ok none

/-- JavaScript truthiness of a defined value. -/
def jsTruthy : Json → Bool
  | .null => false
  | .bool b => b
  | .num n => n ≠ 0
  | .str s => s ≠ []
  | .arr _ => true
  | .obj _ => true

/-- Evaluation of the idiom `x || 'fallback'` followed by template
interpolation: the interpolated value when truthy, else the fallback
string. -/
def orFalsy (v : Option Json) (fallback : List Char) : List Char :=
  match v with
  | some j => if jsTruthy j then jsToStr j else fallback
  | none => fallback

/-- Evaluation of `s || 'fallback'` on a string: the empty string is
falsy. -/
def strOrElse (s fallback : List Char) : List Char :=
  if s = [] then fallback else s

/-- Elements of a JSON array as a Lean list. -/
def toListElems : JsonElems → List Json
  | .nil => []
  | .cons j tl => j :: toListElems tl

/-- Traversal formatting each element, propagating the first thrown
error, as `Array.prototype.map` does with a throwing callback. -/
def mapExcept (f : Json → Except JsError (List Char)) :
    List Json → Except JsError (List (List Char))
  | [] => .ok []
  | j :: tl => do
      let s ← f j
      let rest ← mapExcept f tl
      .ok (s :: rest)

/-- Join with newline, `Array.prototype.join('\n')`. -/
def joinNl : List (List Char) → List Char
  | [] => []
  | [s] => s
  | s :: tl => s ++ '\n' :: joinNl tl

/-- Value of one base64 alphabet character. -/
def b64Val (c : Char) : Option Nat :=
  if 'A' ≤ c ∧ c ≤ 'Z' then some (c.toNat - 65)
  else if 'a' ≤ c ∧ c ≤ 'z' then some (c.toNat - 71)
  else if '0' ≤ c ∧ c ≤ '9' then some (c.toNat + 4)
  else if c = '+' then some 62
  else if c = '/' then some 63
  else none

/-- Byte reconstruction from six-bit groups (groups of four give three
bytes; trailing groups give the leading complete bytes, as Node's
base64 decoder does). -/
def b64Quads : List Nat → List Nat
  | a :: b :: c :: d :: rest =>
      (a * 4 + b / 16) :: ((b % 16) * 16 + c / 4) :: ((c % 4) * 64 + d) :: b64Quads rest
  | [a, b, c] => [a * 4 + b / 16, (b % 16) * 16 + c / 4]
  | [a, b] => [a * 4 + b / 16]
  | _ => []

/-- Decoding `Buffer.from(s, 'base64').toString('utf-8')`: invalid
characters (including padding) are skipped, six-bit groups are packed
into bytes, and bytes are read back as characters (exact for ASCII
payloads, which is also where the byte-to-text reading of the model and
UTF-8 agree). -/
def b64DecodeStr (s : List Char) : List Char :=
  (b64Quads (s.filterMap b64Val)).map Char.ofNat

/-! ## Tool arguments and the per-tool backend requests -/

/-- Argument object of a tool call, with exactly the fields the five
tool handlers read; an absent field is JavaScript `undefined`. -/
structure Args where
  owner : Option Json := none
  repo : Option Json := none
  state : Option Json := none
  title : Option Json := none
  body : Option Json := none
  labels : Option Json := none
  path : Option Json := none
  ref : Option Json := none
  per_page : Option Json := none
  sort : Option Json := none
deriving DecidableEq

/-- Dynamic field lookup on an argument object, for stating schema
properties against the registry's field names. -/
def Args.get (a : Args) (f : List Char) : Option Json :=
  if f = strL "owner" then a.owner
  else if f = strL "repo" then a.repo
  else if f = strL "state" then a.state
  else if f = strL "title" then a.title
  else if f = strL "body" then a.body
  else if f = strL "labels" then a.labels
  else if f = strL "path" then a.path
  else if f = strL "ref" then a.ref
  else if f = strL "per_page" then a.per_page
  else if f = strL "sort" then a.sort
  else none

/-- Endpoint of `getRepository(args.owner, args.repo)`. -/
def getRepoEndpoint (a : Args) : List Char :=
  strL "/repos/" ++ jsOptStr a.owner ++ '/' :: jsOptStr a.repo

/-- Default-applied `per_page` parameter of `listRepositories`. -/
def perPageVal (a : Args) : Json := a.per_page.getD (.num 30)

/-- Default-applied `sort` parameter of `listRepositories`. -/
def sortVal (a : Args) : Json := a.sort.getD (.str (strL "updated"))

/-- Endpoint of `listRepositories(args.per_page, args.sort)`. -/
def listReposEndpoint (a : Args) : List Char :=
  strL "/user/repos?per_page=" ++ jsToStr (perPageVal a)
    ++ strL "&sort=" ++ jsToStr (sortVal a)

/-- Default-applied `state` parameter of `listIssues`. -/
def stateVal (a : Args) : Json := a.state.getD (.str (strL "open"))

/-- Endpoint of `listIssues(args.owner, args.repo, args.state)`. -/
def listIssuesEndpoint (a : Args) : List Char :=
  strL "/repos/" ++ jsOptStr a.owner ++ '/' :: jsOptStr a.repo
    ++ strL "/issues?state=" ++ jsToStr (stateVal a)

/-- Endpoint of `createIssue(args.owner, args.repo, data)`. -/
def createIssueEndpoint (a : Args) : List Char :=
  strL "/repos/" ++ jsOptStr a.owner ++ '/' :: jsOptStr a.repo ++ strL "/issues"

/-- Fields of the issue-creation payload
`{ title: args.title, body: args.body, labels: args.labels }`;
fields holding `undefined` are dropped by `JSON.stringify`. -/
def issueFields (a : Args) : JsonFields :=
  let f3 := match a.labels with
    | some v => JsonFields.cons (strL "labels") v .nil
    | none => .nil
  let f2 := match a.body with
    | some v => JsonFields.cons (strL "body") v f3
    | none => f3
  match a.title with
  | some v => JsonFields.cons (strL "title") v f2
  | none => f2

/-- Serialized body of the issue-creation POST. -/
def createIssueBody (a : Args) : List Char :=
  stringifyJson (.obj (issueFields a))

/-- Default-applied `ref` parameter of `getFileContent`. -/
def refVal (a : Args) : Json := a.ref.getD (.str (strL "main"))

/-- Endpoint of `getFileContent(args.owner, args.repo, args.path,
args.ref)`. -/
def fileContentEndpoint (a : Args) : List Char :=
  strL "/repos/" ++ jsOptStr a.owner ++ '/' :: jsOptStr a.repo
    ++ strL "/contents/" ++ jsOptStr a.path ++ strL "?ref=" ++ jsToStr (refVal a)

/-! ## Per-tool formatting of the backend payload -/

/-- Formatting of the `github_get_repository` result text. -/
def formatRepo (repo : Json) : Except JsError (List Char) := do
  let fullName ← jsGet (some repo) (strL "full_name")
  let descr ← jsGet (some repo) (strL "description")
  let lang ← jsGet (some repo) (strL "language")
  let stars ← jsGet (some repo) (strL "stargazers_count")
  let forks ← jsGet (some repo) (strL "forks_count")
  let created ← jsGet (some repo) (strL "created_at")
  let updated ← jsGet (some repo) (strL "updated_at")
  let url ← jsGet (some repo) (strL "html_url")
  .ok (strL "Repository: " ++ jsOptStr fullName
    ++ strL "\nDescription: " ++ orFalsy descr (strL "No description")
    ++ strL "\nLanguage: " ++ orFalsy lang (strL "Unknown")
    ++ strL "\nStars: " ++ jsOptStr stars
    ++ strL "\nForks: " ++ jsOptStr forks
    ++ strL "\nCreated: " ++ jsOptStr created
    ++ strL "\nUpdated: " ++ jsOptStr updated
    ++ strL "\nURL: " ++ jsOptStr url)

/-- Formatting of one line of the `github_list_repositories` result. -/
def formatRepoItem (repo : Json) : Except JsError (List Char) := do
  let fullName ← jsGet (some repo) (strL "full_name")
  let descr ← jsGet (some repo) (strL "description")
  let lang ← jsGet (some repo) (strL "language")
  .ok (jsOptStr fullName ++ strL " - " ++ orFalsy descr (strL "No description")
    ++ strL " (" ++ orFalsy lang (strL "Unknown") ++ strL ")")

/-- Formatting of the `github_list_repositories` result text. -/
def formatRepoList (repos : Json) : Except JsError (List Char) :=
  match repos with
  | .arr xs => do
      let lines ← mapExcept formatRepoItem (toListElems xs)
      .ok (strL "Found " ++ intStr (toListElems xs).length
        ++ strL " repositories:\n\n" ++ joinNl lines)
  | _ => .error (mapNotFnErr (strL "repos"))

/-- Formatting of one line of the `github_list_issues` result. -/
def formatIssueItem (issue : Json) : Except JsError (List Char) := do
  let num ← jsGet (some issue) (strL "number")
  let title ← jsGet (some issue) (strL "title")
  let state ← jsGet (some issue) (strL "state")
  let user ← jsGet (some issue) (strL "user")
  let login ← jsGet user (strL "login")
  .ok ('#' :: jsOptStr num ++ strL ": " ++ jsOptStr title
    ++ strL " (" ++ jsOptStr state ++ strL ") - " ++ jsOptStr login)

/-- Formatting of the `github_list_issues` result text (argument
values are interpolated into the heading). -/
def formatIssueList (a : Args) (issues : Json) : Except JsError (List Char) :=
  match issues with
  | .arr xs => do
      let lines ← mapExcept formatIssueItem (toListElems xs)
      .ok (strL "Issues in " ++ jsOptStr a.owner ++ '/' :: jsOptStr a.repo
        ++ strL " (" ++ jsOptStr a.state ++ strL "):\n\n"
        ++ strOrElse (joinNl lines) (strL "No issues found"))
  | _ => .error (mapNotFnErr (strL "issues"))

/-- Formatting of the `github_create_issue` result text. -/
def formatNewIssue (newIssue : Json) : Except JsError (List Char) := do
  let num ← jsGet (some newIssue) (strL "number")
  let title ← jsGet (some newIssue) (strL "title")
  let url ← jsGet (some newIssue) (strL "html_url")
  .ok (strL "Created issue #" ++ jsOptStr num ++ strL ": " ++ jsOptStr title
    ++ strL "\nURL: " ++ jsOptStr url)

/-- Handling of the `github_get_file_content` payload: the type check
(throwing `Path is not a file` on any non-file payload), base64
decoding of the content, then formatting. -/
def formatFileContent (a : Args) (fileData : Json) : Except JsError (List Char) := do
  let t ← jsGet (some fileData) (strL "type")
  if t = some (.str (strL "file")) then do
    let c ← jsGet (some fileData) (strL "content")
    match c with
    | some (.str s) => do
        let size ← jsGet (some fileData) (strL "size")
        .ok (strL "File: " ++ jsOptStr a.path ++ strL " (" ++ jsOptStr size
          ++ strL " bytes)\n\n" ++ b64DecodeStr s)
    | _ => .error bufferTypeErr
  else .error ⟨strL "Path is not a file"⟩

/-! ## Tool registry -/

/-- Schema of one parameter: primitive type, optional enumeration,
optional default. -/
structure PropSchema where
  ptype : List Char
  enumVals : Option (List (List Char)) := none
  dflt : Option Json := none
deriving DecidableEq

/-- Descriptor of one tool: name, description, parameter schema
(field name to schema), required field names. -/
structure ToolDescriptor where
  name : List Char
  descr : List Char
  properties : List (List Char × PropSchema)
  required : List (List Char)
deriving DecidableEq

/-- The static catalog served by `tools/list` (and `GET /mcp/tools`):
the five tool descriptors of this server variant, in declaration
order. -/
def toolRegistry : List ToolDescriptor :=
  [ ⟨strL "github_get_repository",
     strL "Get information about a GitHub repository",
     [(strL "owner", ⟨strL "string", none, none⟩), (strL "repo", ⟨strL "string", none, none⟩)],
     [strL "owner", strL "repo"]⟩,
    ⟨strL "github_list_repositories",
     strL "List repositories for the authenticated user",
     [(strL "per_page", ⟨strL "number", none, some (.num 30)⟩),
      (strL "sort", ⟨strL "string",
        some [strL "created", strL "updated", strL "pushed", strL "full_name"],
        some (.str (strL "updated"))⟩)],
     []⟩,
    ⟨strL "github_list_issues",
     strL "List issues for a repository",
     [(strL "owner", ⟨strL "string", none, none⟩), (strL "repo", ⟨strL "string", none, none⟩),
      (strL "state", ⟨strL "string",
        some [strL "open", strL "closed", strL "all"], some (.str (strL "open"))⟩)],
     [strL "owner", strL "repo"]⟩,
    ⟨strL "github_create_issue",
     strL "Create a new issue in a repository",
     [(strL "owner", ⟨strL "string", none, none⟩), (strL "repo", ⟨strL "string", none, none⟩),
      (strL "title", ⟨strL "string", none, none⟩), (strL "body", ⟨strL "string", none, none⟩),
      (strL "labels", ⟨strL "array", none, none⟩)],
     [strL "owner", strL "repo", strL "title"]⟩,
    ⟨strL "github_get_file_content",
     strL "Get the content of a file from a repository",
     [(strL "owner", ⟨strL "string", none, none⟩), (strL "repo", ⟨strL "string", none, none⟩),
      (strL "path", ⟨strL "string", none, none⟩),
      (strL "ref", ⟨strL "string", none, some (.str (strL "main"))⟩)],
     [strL "owner", strL "repo", strL "path"]⟩ ]

/-- Names present in the registry (the cases of the `switch`). -/
def knownToolNames : List (List Char) :=
  [strL "github_get_repository", strL "github_list_repositories",
   strL "github_list_issues", strL "github_create_issue",
   strL "github_get_file_content"]

/-! ## The tool-call dispatcher -/

/-- Embedding of the `switch (name)` of the tool-call handlers (the
JSON-RPC `tools/call` branch and the `POST /mcp/tools/call` handler
contain textually near-identical copies of this switch producing the
same strings; it is embedded once).  Each known tool reads its argument
fields (throwing a `TypeError` when the argument object itself is
`undefined`), performs its backend request through `makeRequest`, and
formats the payload; an unknown name throws before touching the
arguments, the backend, or the cache. -/
def dispatchTool (backend : Backend) (now : Nat) (name : Option Json)
    (args : Option Args) (st : St) : Except JsError (List Char) × St × Nat :=
  if name = some (.str (strL "github_get_repository")) then
    match args with
    | none => (.error (typeErrUndef (strL "owner")), st, 0)
    | some a =>
        let r := makeRequest backend now (getRepoEndpoint a) .get st
        (r.1.bind formatRepo, r.2.1, r.2.2)
  else if name = some (.str (strL "github_list_repositories")) then
    match args with
    | none => (.error (typeErrUndef (strL "per_page")), st, 0)
    | some a =>
        let r := makeRequest backend now (listReposEndpoint a) .get st
        (r.1.bind formatRepoList, r.2.1, r.2.2)
  else if name = some (.str (strL "github_list_issues")) then
    match args with
    | none => (.error (typeErrUndef (strL "owner")), st, 0)
    | some a =>
        let r := makeRequest backend now (listIssuesEndpoint a) .get st
        (r.1.bind (formatIssueList a), r.2.1, r.2.2)
  else if name = some (.str (strL "github_create_issue")) then
    match args with
    | none => (.error (typeErrUndef (strL "owner")), st, 0)
    | some a =>
        let r := makeRequest backend now (createIssueEndpoint a)
          (.postJson (createIssueBody a)) st
        (r.1.bind formatNewIssue, r.2.1, r.2.2)
  else if name = some (.str (strL "github_get_file_content")) then
    match args with
    | none => (.error (typeErrUndef (strL "owner")), st, 0)
    | some a =>
        let r := makeRequest backend now (fileContentEndpoint a) .get st
        (r.1.bind (formatFileContent a), r.2.1, r.2.2)
  else (.error ⟨strL "Unknown tool: " ++ jsOptStr name⟩, st, 0)

/-! ## The JSON-RPC handler and the two call transports -/

/-- Parameters of a `tools/call` message after destructuring. -/
structure CallParams where
  name : Option Json := none
  args : Option Args := none

/-- Incoming JSON-RPC message (fields absent from the wire are
`undefined`). -/
structure RpcMessage where
  jsonrpc : Option Json := none
  id : Option Json := none
  method : Option Json := none
  params : Option CallParams := none

/-- Error member of a JSON-RPC response. -/
structure RpcError where
  code : Int
  message : List Char
deriving DecidableEq

/-- Result member of a JSON-RPC response: the tool-call content block,
the `initialize` metadata, or the tool catalog. -/
inductive RpcPayload where
  | toolText (text : List Char) : RpcPayload
  | initMeta (protocolVersion serverName serverVersion : List Char) : RpcPayload
  | toolCatalog (tools : List ToolDescriptor) : RpcPayload
deriving DecidableEq

/-- Outgoing JSON-RPC response envelope. -/
structure RpcResponse where
  jsonrpc : List Char
  id : Option Json
  result : Option RpcPayload
  error : Option RpcError
deriving DecidableEq

/-- Message of the `TypeError` raised by destructuring
`const { name, arguments: args } = params` when `params` is
`undefined` (this happens outside the `try`, so it escapes
`handleJsonRpcRequest`). -/
def destructureErr : JsError :=
  ⟨strL "Cannot destructure property 'name' of 'params' as it is undefined."⟩

/-- Embedding of `handleJsonRpcRequest`: `initialize` and `tools/list`
return static payloads; `tools/call` destructures the parameters
(throwing out of the function when they are `undefined`), runs the
dispatcher, and wraps its outcome in a result envelope or a code
`-32000` error envelope; any other method yields the code `-32601`
`Method not found` envelope. -/
def handleJsonRpcRequest (backend : Backend) (now : Nat) (msg : RpcMessage)
    (st : St) : Except JsError RpcResponse × St × Nat :=
  if msg.method = some (.str (strL "initialize")) then
    (.ok ⟨strL "2.0", msg.id,
       some (.initMeta (strL "2024-11-05") (strL "github-mcp-server") (strL "1.0.0")),
       none⟩, st, 0)
  else if msg.method = some (.str (strL "tools/list")) then
    (.ok ⟨strL "2.0", msg.id, some (.toolCatalog toolRegistry), none⟩, st, 0)
  else if msg.method = some (.str (strL "tools/call")) then
    match msg.params with
    | none => (.error destructureErr, st, 0)
    | some p =>
        match dispatchTool backend now p.name p.args st with
        | (.ok text, st', n) =>
            (.ok ⟨strL "2.0", msg.id, some (.toolText text), none⟩, st', n)
        | (.error e, st', n) =>
            (.ok ⟨strL "2.0", msg.id, none, some ⟨-32000, e.message⟩⟩, st', n)
  else
    (.ok ⟨strL "2.0", msg.id, none, some ⟨-32601, strL "Method not found"⟩⟩, st, 0)

/-- Embedding of `POST /sse`: the JSON-RPC handler's response is
returned as is; an exception escaping it becomes a code `-32603` error
envelope (still correlated to the message id). -/
def postSse (backend : Backend) (now : Nat) (msg : RpcMessage) (st : St) :
    RpcResponse × St × Nat :=
  match handleJsonRpcRequest backend now msg st with
  | (.ok r, st', n) => (r, st', n)
  | (.error e, st', n) =>
      (⟨strL "2.0", msg.id, none, some ⟨-32603, e.message⟩⟩, st', n)

/-- Response of the direct-call transport: HTTP status, text of the
single content block, and the error flag. -/
structure DirectResponse where
  status : Nat
  text : List Char
  isError : Bool
deriving DecidableEq

/-- Embedding of `POST /mcp/tools/call`: the dispatcher's text on
success (HTTP 200), and on any thrown error an HTTP 500 response whose
in-band content block reads `Error: ` plus the message, flagged
`isError`. -/
def directToolCall (backend : Backend) (now : Nat) (name : Option Json)
    (args : Option Args) (st : St) : DirectResponse × St × Nat :=
  match dispatchTool backend now name args st with
  | (.ok text, st', n) => (⟨200, text, false⟩, st', n)
  | (.error e, st', n) => (⟨500, strL "Error: " ++ e.message, true⟩, st', n)

/-! ## The SSE session manager -/

/-- Keepalive interval of the SSE endpoint, in milliseconds. -/
def KEEPALIVE_INTERVAL_MS : Nat := 30000

/-- Payload of the initial handshake frame of `GET /sse` (the endpoint
message naming the callback address for the given port). -/
def handshakePayload (port : List Char) : List Char :=
  strL "data: \x7b\"jsonrpc\":\"2.0\",\"method\":\"endpoint\",\"params\":\x7b\"uri\":\"http://localhost:"
    ++ port ++ strL "/sse\"\x7d\x7d\n\n"

/-- Payload of one keepalive frame. -/
def pingPayload : List Char := strL ":ping\n\n"

/-- State of the SSE session manager: the `sessions` map (keys only;
the stored value is the response handle plus the id itself), the set of
sessions whose keepalive interval is still armed, and the id generator
(`uuidv4` is modeled by a fresh counter, capturing its uniqueness
contract). -/
structure SseState where
  sessions : List Nat
  timers : List Nat
  nextId : Nat

/-- Initial SSE state: no sessions. -/
def sseInit : SseState := ⟨[], [], 0⟩

/-- Events driving the session manager: a connection opening, the
keepalive interval of a session firing (possible only while that
interval is armed), and the transport observing a peer disconnect. -/
inductive SseEv where
  | opn : SseEv
  | tick (sid : Nat) : SseEv
  | close (sid : Nat) : SseEv

/-- Frames written to a session's stream. -/
inductive SseFrame where
  | handshake (sid : Nat) (payload : List Char) : SseFrame
  | ping (sid : Nat) (payload : List Char) : SseFrame
deriving DecidableEq

/-- One step of the `GET /sse` handler logic: on open, generate a fresh
id, register the session, arm its keepalive interval and write the
handshake frame; on an armed interval firing, write one keepalive
frame; on close, cancel the interval (`clearInterval`) and delete the
session from the map. -/
def sseStep (port : List Char) (s : SseState) : SseEv → SseState × List SseFrame
  | .opn =>
      (⟨s.nextId :: s.sessions, s.nextId :: s.timers, s.nextId + 1⟩,
       [.handshake s.nextId (handshakePayload port)])
  | .tick sid =>
      (s, if sid ∈ s.timers then [.ping sid pingPayload] else [])
  | .close sid =>
      (⟨s.sessions.erase sid, s.timers.erase sid, s.nextId⟩, [])

/-- Run of the session manager over an event list, accumulating emitted
frames. -/
def sseRun (port : List Char) (s : SseState) : List SseEv → SseState × List SseFrame
  | [] => (s, [])
  | ev :: evs =>
      ((sseRun port (sseStep port s ev).1 evs).1,
       (sseStep port s ev).2 ++ (sseRun port (sseStep port s ev).1 evs).2)

/-- Well-formedness of the session-manager state: every registered or
timer-armed id was generated earlier than the next fresh id, and no id
occurs twice (ids are generated freshly). -/
def SseInv (s : SseState) : Prop :=
  (∀ i ∈ s.sessions, i < s.nextId) ∧ (∀ i ∈ s.timers, i < s.nextId) ∧
    s.sessions.Nodup ∧ s.timers.Nodup

/-! ## Injectivity of the cache-key fingerprint

The key is `url ++ "_" ++ JSON.stringify(options)`.  Distinct requests
give distinct keys because (i) the serialized options of a GET request
end in the two braces while those of a POST end in quote-brace, (ii)
the serialized POST options contain no occurrence of the three-character
pattern underscore, brace, quote after position zero (the body string is
JSON-escaped, so its quotes always follow a backslash), which pins the
split point between the url and the serialized options. -/

/-- Last two characters of a string. -/
def last2 (l : List Char) : Option (Char × Char) :=
  match l.reverse with
  | b :: a :: _ => some (a, b)
  | _ => none

theorem last2_append_pair (x : List Char) (a b : Char) :
    last2 (x ++ [a, b]) = some (a, b) := by
  simp [last2, List.reverse_append]

/-- Absence of the pattern underscore, brace, quote as a substring. -/
def NoUBQ (l : List Char) : Prop :=
  ∀ t r, l ≠ t ++ '_' :: lbrace :: dquote :: r

theorem noUBQ_nil : NoUBQ [] := by
  intro t r h
  cases t <;> simp_all

theorem noUBQ_cons {c : Char} {l : List Char} (hc : c ≠ '_') (h : NoUBQ l) :
    NoUBQ (c :: l) := by
  intro t r he
  cases t with
  | nil => exact hc (by simpa using congrArg (fun x => x.headD ' ') he)
  | cons c' t' =>
      simp only [List.cons_append, List.cons.injEq] at he
      exact h t' r he.2

theorem noUBQ_append {a l : List Char} (ha : ∀ c ∈ a, c ≠ '_') (h : NoUBQ l) :
    NoUBQ (a ++ l) := by
  induction a with
  | nil => simpa using h
  | cons c a ih =>
      have : NoUBQ (a ++ l) := ih (fun c' hc' => ha c' (by simp [hc']))
      simpa using noUBQ_cons (ha c (by simp)) this

theorem noUBQ_cons_underscore {l : List Char} (h : NoUBQ l)
    (hh : ∀ r, l ≠ lbrace :: dquote :: r) : NoUBQ ('_' :: l) := by
  intro t r he
  cases t with
  | nil =>
      simp only [List.nil_append, List.cons.injEq] at he
      exact hh r he.2
  | cons c' t' =>
      simp only [List.cons_append, List.cons.injEq] at he
      exact h t' r he.2

/-- Shape analysis of `escChar`: the output is either the character
itself (then not backslash and not quote), or starts with a
backslash. -/
theorem escChar_shape (c : Char) :
    (escChar c = [c] ∧ c ≠ bslash ∧ c ≠ dquote) ∨ ∃ t, escChar c = bslash :: t := by
  unfold escChar
  split_ifs with h1 h2 h3 h4 h5 h6 h7 h8
  · exact .inr ⟨_, rfl⟩
  · exact .inr ⟨_, rfl⟩
  · exact .inr ⟨_, rfl⟩
  · exact .inr ⟨_, rfl⟩
  · exact .inr ⟨_, rfl⟩
  · exact .inr ⟨_, rfl⟩
  · exact .inr ⟨_, rfl⟩
  · exact .inr ⟨_, rfl⟩
  · exact .inl ⟨rfl, h2, h1⟩

theorem jsonEscStr_head_ne_dquote : ∀ (b r : List Char), jsonEscStr b ≠ dquote :: r := by
  intro b r h
  cases b with
  | nil => simp [jsonEscStr] at h
  | cons c b' =>
      rw [jsonEscStr] at h
      rcases escChar_shape c with ⟨he, _, hq⟩ | ⟨t, he⟩
      · rw [he] at h
        simp only [List.cons_append, List.cons.injEq] at h
        exact hq h.1
      · rw [he] at h
        simp only [List.cons_append, List.cons.injEq] at h
        exact absurd h.1 (by decide)

theorem jsonEscStr_not_brace_quote : ∀ (b r : List Char),
    jsonEscStr b ≠ lbrace :: dquote :: r := by
  intro b r h
  cases b with
  | nil => simp [jsonEscStr] at h
  | cons c b' =>
      rw [jsonEscStr] at h
      rcases escChar_shape c with ⟨he, _, _⟩ | ⟨t, he⟩
      · rw [he] at h
        simp only [List.cons_append, List.cons.injEq] at h
        exact jsonEscStr_head_ne_dquote b' r h.2
      · rw [he] at h
        simp only [List.cons_append, List.cons.injEq] at h
        exact absurd h.1 (by decide)

theorem hexDigit_lt16_ne_underscore : ∀ n, n < 16 → hexDigit n ≠ '_' := by decide

theorem escChar_mem_ne_underscore {c : Char} (hc : c ≠ '_') :
    ∀ x ∈ escChar c, x ≠ '_' := by
  unfold escChar
  split_ifs with h1 h2 h3 h4 h5 h6 h7 h8
  · decide
  · decide
  · decide
  · decide
  · decide
  · decide
  · decide
  · intro x hx
    have ha : c.toNat / 16 < 16 := by omega
    have hb : c.toNat % 16 < 16 := Nat.mod_lt _ (by norm_num)
    simp only [List.mem_cons, List.not_mem_nil, or_false] at hx
    rcases hx with rfl | rfl | rfl | rfl | rfl | rfl
    · decide
    · decide
    · decide
    · decide
    · exact hexDigit_lt16_ne_underscore _ ha
    · exact hexDigit_lt16_ne_underscore _ hb
  · intro x hx
    simp only [List.mem_singleton] at hx
    subst hx; exact hc

theorem noUBQ_jsonEscStr : ∀ b : List Char, NoUBQ (jsonEscStr b) := by
  intro b
  induction b with
  | nil => simpa [jsonEscStr] using noUBQ_nil
  | cons c b' ih =>
      rw [jsonEscStr]
      by_cases hc : c = '_'
      · subst hc
        have he : escChar '_' = ['_'] := by decide
        rw [he]
        simpa using noUBQ_cons_underscore ih (jsonEscStr_not_brace_quote b')
      · exact noUBQ_append (escChar_mem_ne_underscore hc) ih

theorem postOptsHead_no_underscore : ∀ c ∈ postOptsHead, c ≠ '_' := by decide

theorem noUBQ_postBody (b : List Char) : NoUBQ (postOptsHead ++ jsonEscStr b) :=
  noUBQ_append postOptsHead_no_underscore (noUBQ_jsonEscStr b)

/-- Value of a lowercase hexadecimal digit character (proof device for
inverting `hexDigit`). -/
def hexVal (c : Char) : Nat :=
  if c.toNat ≤ 57 then c.toNat - 48 else c.toNat - 87

/-- One step of decoding a JSON-escaped string: reads one escape
sequence or one literal character (proof device for the injectivity of
`jsonEscStr`). -/
def unescOne (l : List Char) : Option (Char × List Char) :=
  match l with
  | [] => none
  | c :: r =>
    if c = bslash then
      match r with
      | [] => none
      | d :: r' =>
        if d = dquote then some (dquote, r')
        else if d = bslash then some (bslash, r')
        else if d = 'b' then some ('\x08', r')
        else if d = 'f' then some ('\x0c', r')
        else if d = 'n' then some ('\n', r')
        else if d = 'r' then some ('\r', r')
        else if d = 't' then some ('\t', r')
        else if d = 'u' then
          match r' with
          | _ :: _ :: h1 :: h2 :: r'' =>
              some (Char.ofNat (16 * hexVal h1 + hexVal h2), r'')
          | _ => none
        else none
    else some (c, r)

theorem hexVal_hexDigit : ∀ n, n < 16 → hexVal (hexDigit n) = n := by decide

theorem unescOne_escChar (c : Char) (r : List Char) :
    unescOne (escChar c ++ r) = some (c, r) := by
  unfold escChar
  split_ifs with h1 h2 h3 h4 h5 h6 h7 h8
  · subst h1; simp [unescOne]
  · subst h2; simp [unescOne]; decide
  · subst h3; simp [unescOne]; rw [if_neg (by decide), if_neg (by decide)]
  · subst h4; simp [unescOne]; rw [if_neg (by decide), if_neg (by decide)]
  · subst h5; simp [unescOne]; rw [if_neg (by decide), if_neg (by decide)]
  · subst h6; simp [unescOne]; rw [if_neg (by decide), if_neg (by decide)]
  · subst h7; simp [unescOne]; rw [if_neg (by decide), if_neg (by decide)]
  · have ha : c.toNat / 16 < 16 := by omega
    have hb : c.toNat % 16 < 16 := Nat.mod_lt _ (by norm_num)
    simp only [List.cons_append, List.nil_append, unescOne, eq_self_iff_true,
      if_true]
    rw [if_neg (by decide), if_neg (by decide), if_neg (by decide),
      if_neg (by decide), if_neg (by decide), if_neg (by decide),
      if_neg (by decide)]
    rw [hexVal_hexDigit _ ha, hexVal_hexDigit _ hb, Nat.div_add_mod,
      Char.ofNat_toNat]
  · simp only [List.cons_append, List.nil_append, unescOne]
    rw [if_neg h2]

theorem escChar_ne_nil (c : Char) : escChar c ≠ [] := by
  unfold escChar
  split_ifs <;> simp

theorem jsonEscStr_inj : ∀ b1 b2 : List Char,
    jsonEscStr b1 = jsonEscStr b2 → b1 = b2 := by
  intro b1
  induction b1 with
  | nil =>
      intro b2 h
      cases b2 with
      | nil => rfl
      | cons c b2' =>
          rw [jsonEscStr, jsonEscStr] at h
          exact absurd (List.append_eq_nil.mp h.symm).1 (escChar_ne_nil c)
  | cons c1 b1' ih =>
      intro b2 h
      cases b2 with
      | nil =>
          rw [jsonEscStr, jsonEscStr] at h
          exact absurd (List.append_eq_nil.mp h).1 (escChar_ne_nil c1)
      | cons c2 b2' =>
          rw [jsonEscStr, jsonEscStr] at h
          have := congrArg unescOne h
          rw [unescOne_escChar, unescOne_escChar] at this
          simp only [Option.some.injEq, Prod.mk.injEq] at this
          exact by rw [this.1, ih b2' this.2]

theorem last2_key_get (e : List Char) :
    last2 (cacheKey e .get) = some (lbrace, rbrace) := by
  have h : cacheKey e .get = (baseURL ++ e ++ ['_']) ++ [lbrace, rbrace] := by
    simp [cacheKey, stringifyOptions, List.append_assoc]
  rw [h, last2_append_pair]

theorem last2_key_post (e b : List Char) :
    last2 (cacheKey e (.postJson b)) = some (dquote, rbrace) := by
  have h : cacheKey e (.postJson b)
      = (baseURL ++ e ++ '_' :: (postOptsHead ++ jsonEscStr b)) ++ [dquote, rbrace] := by
    simp [cacheKey, stringifyOptions, List.append_assoc]
  rw [h, last2_append_pair]

/-- Injectivity of the cache-key derivation on backend requests. -/
theorem cacheKey_inj : ∀ {e1 e2 : List Char} {o1 o2 : ReqOptions},
    cacheKey e1 o1 = cacheKey e2 o2 → e1 = e2 ∧ o1 = o2 := by
  intro e1 e2 o1 o2 h
  cases o1 with
  | get =>
      cases o2 with
      | get =>
          refine ⟨?_, rfl⟩
          simp only [cacheKey, stringifyOptions] at h
          exact List.append_cancel_left (List.append_cancel_right h)
      | postJson b2 =>
          have h2 := congrArg last2 h
          rw [last2_key_get, last2_key_post] at h2
          exact absurd h2 (by decide)
  | postJson b1 =>
      cases o2 with
      | get =>
          have h2 := congrArg last2 h
          rw [last2_key_post, last2_key_get] at h2
          exact absurd h2 (by decide)
      | postJson b2 =>
          simp only [cacheKey, stringifyOptions] at h
          have h2 : (baseURL ++ (e1 ++ '_' :: (postOptsHead ++ jsonEscStr b1))) ++ [dquote, rbrace]
              = (baseURL ++ (e2 ++ '_' :: (postOptsHead ++ jsonEscStr b2))) ++ [dquote, rbrace] := by
            simpa [List.append_assoc, List.cons_append] using h
          have h3 := List.append_cancel_left (List.append_cancel_right h2)
          obtain ⟨rest, hP⟩ : ∃ rest, postOptsHead = lbrace :: dquote :: rest :=
            ⟨postOptsHead.drop 2, by decide⟩
          rcases List.append_eq_append_iff.mp h3 with ⟨a', he2, hx⟩ | ⟨c', he1, hx⟩
          · cases a' with
            | nil =>
                simp only [List.append_nil] at he2
                simp only [List.nil_append, List.cons.injEq, true_and] at hx
                have hb := jsonEscStr_inj b1 b2 (List.append_cancel_left hx)
                exact ⟨he2.symm, by rw [hb]⟩
            | cons c t =>
                simp only [List.cons_append, List.cons.injEq] at hx
                have hx2 := hx.2
                rw [hP] at hx2
                have hno := noUBQ_postBody b1
                rw [hP] at hno
                exact absurd (by simpa [List.cons_append] using hx2)
                  (hno t (rest ++ jsonEscStr b2))
          · cases c' with
            | nil =>
                simp only [List.append_nil] at he1
                simp only [List.nil_append, List.cons.injEq, true_and] at hx
                have hb := jsonEscStr_inj b2 b1 (List.append_cancel_left hx)
                exact ⟨he1, by rw [hb]⟩
            | cons c t =>
                simp only [List.cons_append, List.cons.injEq] at hx
                have hx2 := hx.2
                rw [hP] at hx2
                have hno := noUBQ_postBody b2
                rw [hP] at hno
                exact absurd (by simpa [List.cons_append] using hx2)
                  (hno t (rest ++ jsonEscStr b1))

/-! ## Behavior of `makeRequest` -/

/-- Consistency of a cache with the backend oracle: every stored entry
holds the backend's response for the fingerprinted request.  This holds
for the empty cache and is preserved by `makeRequest`, which only ever
stores successful backend responses. -/
def Consistent (backend : Backend) (c : CacheMap) : Prop :=
  ∀ e o ent, c (cacheKey e o) = some ent → backend e o = .ok ent.data

theorem consistent_empty (backend : Backend) : Consistent backend emptySt.cache := by
  intro e o ent h
  exact absurd h (by simp [emptySt])

theorem cacheGet_eq_some {c : CacheMap} {k : List Char} {now : Nat} {v : Json}
    (h : cacheGet c k now = some v) :
    ∃ ts, c k = some ⟨v, ts⟩ ∧ now - ts < CACHE_DURATION := by
  cases hck : c k with
  | none => simp [cacheGet, hck] at h
  | some ent =>
      obtain ⟨data, tstamp⟩ := ent
      simp only [cacheGet, hck] at h
      by_cases hf : cacheFresh now ⟨data, tstamp⟩
      · rw [if_pos hf] at h
        injection h with h
        subst h
        exact ⟨tstamp, rfl, by simpa [cacheFresh, decide_eq_true_eq] using hf⟩
      · rw [if_neg hf] at h
        cases h

theorem cacheGet_of_fresh {c : CacheMap} {k : List Char} {now ts : Nat} {v : Json}
    (hck : c k = some ⟨v, ts⟩) (hf : now - ts < CACHE_DURATION) :
    cacheGet c k now = some v := by
  unfold cacheGet
  rw [hck]
  simp [cacheFresh, hf]

theorem cacheGet_stale {c : CacheMap} {k : List Char} {now : Nat} {ent : CacheEntry}
    (hck : c k = some ent) (hstale : ¬ now - ent.timestamp < CACHE_DURATION) :
    cacheGet c k now = none := by
  unfold cacheGet cacheFresh
  rw [hck]
  simp [hstale]

theorem makeRequest_hit {backend : Backend} {now : Nat} {e : List Char}
    {o : ReqOptions} {st : St} {data : Json}
    (h : cacheGet st.cache (cacheKey e o) now = some data) :
    makeRequest backend now e o st = (.ok data, st, 0) := by
  unfold makeRequest
  rw [h]

theorem makeRequest_miss_ok {backend : Backend} {now : Nat} {e : List Char}
    {o : ReqOptions} {st : St} {d : Json}
    (h : cacheGet st.cache (cacheKey e o) now = none)
    (hb : backend e o = .ok d) :
    makeRequest backend now e o st
      = (.ok d, ⟨cacheSet st.cache (cacheKey e o) ⟨d, now⟩⟩, 1) := by
  unfold makeRequest
  rw [h, hb]

/-- Fetch-failure view: message carried to the `catch` blocks. -/
def failMsg : FetchOutcome → List Char
  | .ok _ => []
  | .httpErr s t => apiErrMsg s t
  | .networkErr m => m

/-- Discriminator for failing fetch outcomes. -/
def FetchOutcome.isFail : FetchOutcome → Bool
  | .ok _ => false
  | _ => true

theorem makeRequest_miss_err {backend : Backend} {now : Nat} {e : List Char}
    {o : ReqOptions} {st : St}
    (h : cacheGet st.cache (cacheKey e o) now = none)
    (hb : (backend e o).isFail = true) :
    makeRequest backend now e o st = (.error ⟨failMsg (backend e o)⟩, st, 1) := by
  unfold makeRequest
  rw [h]
  cases hbe : backend e o with
  | ok d => rw [hbe] at hb; simp [FetchOutcome.isFail] at hb
  | httpErr s t => simp [failMsg]
  | networkErr m => simp [failMsg]

/-- Two runs of `makeRequest` on the same request within the TTL window,
from a backend-consistent cache and a succeeding backend: both return
the backend's value, and the backend is reached at most once. -/
theorem makeRequest_twice_ok {backend : Backend} {st : St} {t1 t2 : Nat}
    {e : List Char} {o : ReqOptions} {d : Json}
    (hcons : Consistent backend st.cache)
    (hb : backend e o = .ok d)
    (hTTL : t2 - t1 < CACHE_DURATION) :
    (makeRequest backend t1 e o st).1 = .ok d ∧
    (makeRequest backend t2 e o (makeRequest backend t1 e o st).2.1).1 = .ok d ∧
    (makeRequest backend t1 e o st).2.2
      + (makeRequest backend t2 e o (makeRequest backend t1 e o st).2.1).2.2 ≤ 1 := by
  cases h1 : cacheGet st.cache (cacheKey e o) t1 with
  | some v =>
      obtain ⟨ts, hck, _⟩ := cacheGet_eq_some h1
      have hvd : v = d := by
        have hc := hcons e o ⟨v, ts⟩ hck
        rw [hb] at hc
        exact (FetchOutcome.ok.inj hc).symm
      rw [makeRequest_hit h1]
      cases h2 : cacheGet st.cache (cacheKey e o) t2 with
      | some w =>
          obtain ⟨ts2, hck2, _⟩ := cacheGet_eq_some h2
          have hwd : w = d := by
            have hc := hcons e o ⟨w, ts2⟩ hck2
            rw [hb] at hc
            exact (FetchOutcome.ok.inj hc).symm
          rw [makeRequest_hit h2]
          simp [hvd, hwd]
      | none =>
          rw [makeRequest_miss_ok h2 hb]
          simp [hvd]
  | none =>
      rw [makeRequest_miss_ok h1 hb]
      have h2 : cacheGet (cacheSet st.cache (cacheKey e o) ⟨d, t1⟩)
          (cacheKey e o) t2 = some d := by
        simp [cacheGet, cacheSet, cacheFresh, hTTL]
      rw [makeRequest_hit h2]
      simp

theorem cacheGet_empty (k : List Char) (now : Nat) :
    cacheGet emptySt.cache k now = none := rfl

/-! ## Unfolding lemmas for the dispatcher -/

/-- Canonical `tools/call` message carrying an id, a tool name and
arguments. -/
def callMsg (id name : Option Json) (args : Option Args) : RpcMessage :=
  ⟨some (.str (strL "2.0")), id, some (.str (strL "tools/call")), some ⟨name, args⟩⟩

/-- Wrapping of a dispatcher outcome into the JSON-RPC envelope, as the
`tools/call` branch does. -/
def toolCallEnvelope (id : Option Json) :
    Except JsError (List Char) × St × Nat → Except JsError RpcResponse × St × Nat
  | (.ok text, st', n) =>
      (.ok ⟨strL "2.0", id, some (.toolText text), none⟩, st', n)
  | (.error e, st', n) =>
      (.ok ⟨strL "2.0", id, none, some ⟨-32000, e.message⟩⟩, st', n)

theorem handleJsonRpc_toolsCall (backend : Backend) (now : Nat)
    (id name : Option Json) (args : Option Args) (st : St) :
    handleJsonRpcRequest backend now (callMsg id name args) st =
      toolCallEnvelope id (dispatchTool backend now name args st) := by
  rfl

theorem toolCallEnvelope_count (id : Option Json)
    (t : Except JsError (List Char) × St × Nat) :
    (toolCallEnvelope id t).2.2 = t.2.2 := by
  obtain ⟨r, st', n⟩ := t
  cases r <;> rfl

theorem toolCallEnvelope_state (id : Option Json)
    (t : Except JsError (List Char) × St × Nat) :
    (toolCallEnvelope id t).2.1 = t.2.1 := by
  obtain ⟨r, st', n⟩ := t
  cases r <;> rfl

theorem toolCallEnvelope_congr (id : Option Json)
    (t t' : Except JsError (List Char) × St × Nat) (h : t.1 = t'.1) :
    (toolCallEnvelope id t).1 = (toolCallEnvelope id t').1 := by
  obtain ⟨r, st1, n1⟩ := t
  obtain ⟨r', st2, n2⟩ := t'
  simp only at h
  subst h
  cases r <;> rfl

theorem dispatchTool_getRepo (backend : Backend) (now : Nat) (a : Args) (st : St) :
    dispatchTool backend now (some (.str (strL "github_get_repository"))) (some a) st =
      ((makeRequest backend now (getRepoEndpoint a) .get st).1.bind formatRepo,
       (makeRequest backend now (getRepoEndpoint a) .get st).2.1,
       (makeRequest backend now (getRepoEndpoint a) .get st).2.2) := by
  unfold dispatchTool
  rw [if_pos rfl]

theorem dispatchTool_listRepos (backend : Backend) (now : Nat) (a : Args) (st : St) :
    dispatchTool backend now (some (.str (strL "github_list_repositories"))) (some a) st =
      ((makeRequest backend now (listReposEndpoint a) .get st).1.bind formatRepoList,
       (makeRequest backend now (listReposEndpoint a) .get st).2.1,
       (makeRequest backend now (listReposEndpoint a) .get st).2.2) := by
  unfold dispatchTool
  rw [if_neg (by decide), if_pos rfl]

theorem dispatchTool_listIssues (backend : Backend) (now : Nat) (a : Args) (st : St) :
    dispatchTool backend now (some (.str (strL "github_list_issues"))) (some a) st =
      ((makeRequest backend now (listIssuesEndpoint a) .get st).1.bind (formatIssueList a),
       (makeRequest backend now (listIssuesEndpoint a) .get st).2.1,
       (makeRequest backend now (listIssuesEndpoint a) .get st).2.2) := by
  unfold dispatchTool
  rw [if_neg (by decide), if_neg (by decide), if_pos rfl]

theorem dispatchTool_createIssue (backend : Backend) (now : Nat) (a : Args) (st : St) :
    dispatchTool backend now (some (.str (strL "github_create_issue"))) (some a) st =
      ((makeRequest backend now (createIssueEndpoint a)
          (.postJson (createIssueBody a)) st).1.bind formatNewIssue,
       (makeRequest backend now (createIssueEndpoint a)
          (.postJson (createIssueBody a)) st).2.1,
       (makeRequest backend now (createIssueEndpoint a)
          (.postJson (createIssueBody a)) st).2.2) := by
  unfold dispatchTool
  rw [if_neg (by decide), if_neg (by decide), if_neg (by decide), if_pos rfl]

theorem dispatchTool_fileContent (backend : Backend) (now : Nat) (a : Args) (st : St) :
    dispatchTool backend now (some (.str (strL "github_get_file_content"))) (some a) st =
      ((makeRequest backend now (fileContentEndpoint a) .get st).1.bind (formatFileContent a),
       (makeRequest backend now (fileContentEndpoint a) .get st).2.1,
       (makeRequest backend now (fileContentEndpoint a) .get st).2.2) := by
  unfold dispatchTool
  rw [if_neg (by decide), if_neg (by decide), if_neg (by decide),
    if_neg (by decide), if_pos rfl]

theorem dispatchTool_unknown (backend : Backend) (now : Nat) (name : Option Json)
    (args : Option Args) (st : St)
    (h : ∀ s ∈ knownToolNames, name ≠ some (.str s)) :
    dispatchTool backend now name args st =
      (.error ⟨strL "Unknown tool: " ++ jsOptStr name⟩, st, 0) := by
  unfold dispatchTool
  rw [if_neg (h _ (by decide)), if_neg (h _ (by decide)), if_neg (h _ (by decide)),
    if_neg (h _ (by decide)), if_neg (h _ (by decide))]

/-! ## Claims -/

/-- C2: the cache-key derivation is injective on the backend request:
two call-tool invocations whose backend requests differ in endpoint
(path or query), method, or body derive different cache keys, and
writing one request's cache slot never touches the other's, so the two
calls never share a cache entry. -/
theorem c2_cache_key_injective (e1 e2 : List Char) (o1 o2 : ReqOptions)
    (hne : ¬(e1 = e2 ∧ o1 = o2)) :
    cacheKey e1 o1 ≠ cacheKey e2 o2 ∧
    ∀ (c : CacheMap) (ent : CacheEntry),
      cacheSet c (cacheKey e1 o1) ent (cacheKey e2 o2) = c (cacheKey e2 o2) := by
  have hk : cacheKey e1 o1 ≠ cacheKey e2 o2 := fun h => hne (cacheKey_inj h)
  refine ⟨hk, fun c ent => ?_⟩
  simp only [cacheSet]
  rw [if_neg (fun h => hk h.symm)]

/-- Witness for C2 at a concrete pair of requests differing only in
method and body. -/
theorem c2_cache_key_injective_witness :
    cacheKey (strL "/repos/acme/widgets") .get
      ≠ cacheKey (strL "/repos/acme/widgets") (.postJson (strL "x_y")) :=
  (c2_cache_key_injective _ _ _ _ (by decide)).1

/-- C4: the cache read returns the stored value exactly when an entry
exists and `now - storedAt < TTL` with the TTL fixed at 60 seconds; it
returns nothing both for never-written keys and for entries whose age
reaches the TTL, and on such a stale entry `makeRequest` invokes the
backend again even though the request is unchanged. -/
theorem c4_cache_get_ttl :
    (∀ (c : CacheMap) (k : List Char) (now : Nat) (v : Json),
      cacheGet c k now = some v ↔
        ∃ ts, c k = some ⟨v, ts⟩ ∧ now - ts < CACHE_DURATION) ∧
    CACHE_DURATION = 60000 ∧
    (∀ (c : CacheMap) (k : List Char) (now : Nat),
      c k = none → cacheGet c k now = none) ∧
    (∀ (c : CacheMap) (k : List Char) (now : Nat) (ent : CacheEntry),
      c k = some ent → CACHE_DURATION ≤ now - ent.timestamp →
      cacheGet c k now = none) ∧
    (∀ (backend : Backend) (now : Nat) (e : List Char) (o : ReqOptions)
      (st : St) (ent : CacheEntry),
      st.cache (cacheKey e o) = some ent → CACHE_DURATION ≤ now - ent.timestamp →
      (makeRequest backend now e o st).2.2 = 1) := by
  refine ⟨?_, rfl, ?_, ?_, ?_⟩
  · intro c k now v
    exact ⟨cacheGet_eq_some, fun ⟨ts, hck, hf⟩ => cacheGet_of_fresh hck hf⟩
  · intro c k now h
    simp [cacheGet, h]
  · intro c k now ent h hs
    exact cacheGet_stale h (by omega)
  · intro backend now e o st ent h hs
    have hn : cacheGet st.cache (cacheKey e o) now = none :=
      cacheGet_stale h (by omega)
    cases hbe : backend e o <;> simp [makeRequest, hn, hbe]

/-- Concrete cache used by the C4 witness: one entry written at time
zero. -/
def c4Cache : CacheMap :=
  fun k => if k = cacheKey (strL "/repos/a/b") .get then some ⟨.null, 0⟩ else none

/-- Witness for C4: the entry is served at age 10 ms and is gone at age
60000 ms. -/
theorem c4_cache_get_ttl_witness :
    cacheGet c4Cache (cacheKey (strL "/repos/a/b") .get) 10 = some .null ∧
    cacheGet c4Cache (cacheKey (strL "/repos/a/b") .get) 60000 = none :=
  ⟨(c4_cache_get_ttl.1 _ _ _ _).mpr ⟨0, by simp [c4Cache], by decide⟩,
   c4_cache_get_ttl.2.2.2.1 _ _ _ ⟨.null, 0⟩ (by simp [c4Cache]) (by decide)⟩

/-- Backend used by the C1 counterexample: always succeeds with an
empty object. -/
def c1Backend : Backend := fun _ _ => .ok (.obj .nil)

/-- Arguments of the C1 counterexample: `owner`, a required field of
`github_get_repository`, is missing. -/
def c1Args : Args := { repo := some (.str (strL "widgets")) }

/-- C1, counterexample: `owner` is required by the matching descriptor
and missing from the arguments, yet the call is not rejected — the
backend capability is invoked (once), contradicting the claimed
`InvalidArguments` rejection with no backend call. -/
theorem c1_counterexample :
    (∃ d ∈ toolRegistry, d.name = strL "github_get_repository" ∧
      strL "owner" ∈ d.required ∧ Args.get c1Args (strL "owner") = none) ∧
    (handleJsonRpcRequest c1Backend 0
      (callMsg (some (.num 1)) (some (.str (strL "github_get_repository")))
        (some c1Args)) emptySt).2.2 = 1 := by
  constructor
  · decide
  · rfl

/-- C1, amended: the dispatcher performs no schema validation at all.
A call-tool request naming a registry tool whose arguments lack a
required field is not rejected with any `InvalidArguments` outcome;
the missing fields are interpolated as the string `undefined` and the
request proceeds to the cache/backend path, so from an empty cache the
backend capability is invoked exactly once. -/
theorem c1_amended_no_validation (backend : Backend) (id : Option Json)
    (now : Nat) (d : ToolDescriptor) (a : Args)
    (hd : d ∈ toolRegistry)
    (hmiss : ∃ f ∈ d.required, Args.get a f = none) :
    (handleJsonRpcRequest backend now (callMsg id (some (.str d.name)) (some a))
      emptySt).2.2 = 1 := by
  simp only [toolRegistry, List.mem_cons, List.not_mem_nil, or_false] at hd
  rcases hd with rfl | rfl | rfl | rfl | rfl <;>
    rw [handleJsonRpc_toolsCall] <;>
    simp only [dispatchTool_getRepo, dispatchTool_listRepos, dispatchTool_listIssues,
      dispatchTool_createIssue, dispatchTool_fileContent, toolCallEnvelope_count] <;>
    [cases hbe : backend (getRepoEndpoint a) .get;
     cases hbe : backend (listReposEndpoint a) .get;
     cases hbe : backend (listIssuesEndpoint a) .get;
     cases hbe : backend (createIssueEndpoint a) (.postJson (createIssueBody a));
     cases hbe : backend (fileContentEndpoint a) .get] <;>
    simp [makeRequest, cacheGet_empty, hbe]

/-- Witness for C1's amended statement: the concrete missing-`owner`
call of the counterexample. -/
theorem c1_amended_no_validation_witness :
    (handleJsonRpcRequest c1Backend 0
      (callMsg (some (.num 1))
        (some (.str (strL "github_get_repository"))) (some c1Args))
      emptySt).2.2 = 1 :=
  c1_amended_no_validation c1Backend (some (.num 1)) 0
    (toolRegistry.head (by decide)) c1Args (by decide)
    ⟨strL "owner", by decide, by decide⟩

/-- C3, counterexample: an unknown tool name under the JSON-RPC framing
is surfaced as an error envelope with code `-32000` and message
`Unknown tool: <name>`; the handler's method-not-found condition is the
distinct code `-32601` envelope `Method not found`, produced only for
unrecognized methods — so the unknown-tool failure is not surfaced as a
protocol-level method-not-found condition. -/
theorem c3_counterexample :
    (handleJsonRpcRequest (fun _ _ => .ok .null) 0
        (callMsg (some (.num 7)) (some (.str (strL "github_delete_repo")))
          (some {})) emptySt).1 =
      .ok ⟨strL "2.0", some (.num 7), none,
        some ⟨-32000, strL "Unknown tool: github_delete_repo"⟩⟩ ∧
    ((-32000 : Int) = -32601 → False) ∧
    (handleJsonRpcRequest (fun _ _ => .ok .null) 0
        ⟨none, some (.num 8), some (.str (strL "no/such")), none⟩ emptySt).1 =
      .ok ⟨strL "2.0", some (.num 8), none,
        some ⟨-32601, strL "Method not found"⟩⟩ :=
  ⟨rfl, by decide, rfl⟩

/-- C3, amended: for every tool name not present in the registry, both
framings fail with zero backend invocations and an unchanged cache; the
JSON-RPC framing surfaces the failure as a protocol-level error
envelope with code `-32000` carrying `Unknown tool: <name>` (not as the
`-32601` method-not-found condition, which is reserved for unrecognized
methods), and the direct framing surfaces it as an in-band error
content block. -/
theorem c3_amended_unknown_tool (backend : Backend) (now : Nat)
    (id name : Option Json) (args : Option Args) (st : St)
    (h : ∀ s ∈ knownToolNames, name ≠ some (.str s)) :
    handleJsonRpcRequest backend now (callMsg id name args) st =
      (.ok ⟨strL "2.0", id, none,
        some ⟨-32000, strL "Unknown tool: " ++ jsOptStr name⟩⟩, st, 0) ∧
    directToolCall backend now name args st =
      (⟨500, strL "Error: " ++ (strL "Unknown tool: " ++ jsOptStr name), true⟩,
       st, 0) := by
  have hd := dispatchTool_unknown backend now name args st h
  constructor
  · rw [handleJsonRpc_toolsCall, hd]
    rfl
  · unfold directToolCall
    rw [hd]

/-- Witness for C3's amended statement at a concrete unknown name. -/
theorem c3_amended_unknown_tool_witness :
    handleJsonRpcRequest (fun _ _ => .ok .null) 0
        (callMsg (some (.num 7)) (some (.str (strL "github_nope"))) (some {}))
        emptySt =
      (.ok ⟨strL "2.0", some (.num 7), none,
        some ⟨-32000, strL "Unknown tool: " ++ jsOptStr (some (.str (strL "github_nope")))⟩⟩,
       emptySt, 0) :=
  (c3_amended_unknown_tool (fun _ _ => .ok .null) 0 (some (.num 7))
    (some (.str (strL "github_nope"))) (some {}) emptySt (by decide)).1

/-- C6: when the backend fails (non-2xx status or transport fault), the
call-tool failure is reported as a call-level error outcome carrying a
human-readable message — a caught error envelope under the JSON-RPC
framing and an `isError` content block under the direct framing, never
an uncaught exception — and the cache is left unchanged (the state
returned is the input state; only successful responses are written). -/
theorem c6_backend_failure_reported (fail : FetchOutcome)
    (hfail : fail.isFail = true) (name : List Char)
    (hn : name ∈ knownToolNames) (a : Args) (id : Option Json) (now : Nat) :
    handleJsonRpcRequest (fun _ _ => fail) now
        (callMsg id (some (.str name)) (some a)) emptySt =
      (.ok ⟨strL "2.0", id, none, some ⟨-32000, failMsg fail⟩⟩, emptySt, 1) ∧
    directToolCall (fun _ _ => fail) now (some (.str name)) (some a) emptySt =
      (⟨500, strL "Error: " ++ failMsg fail, true⟩, emptySt, 1) := by
  have key : ∀ e o, makeRequest (fun _ _ => fail) now e o emptySt
      = (.error ⟨failMsg fail⟩, emptySt, 1) :=
    fun e o => makeRequest_miss_err (cacheGet_empty _ _) hfail
  simp only [knownToolNames, List.mem_cons, List.not_mem_nil, or_false] at hn
  rcases hn with rfl | rfl | rfl | rfl | rfl <;>
    refine ⟨?_, ?_⟩ <;>
    simp only [handleJsonRpc_toolsCall, directToolCall, dispatchTool_getRepo,
      dispatchTool_listRepos, dispatchTool_listIssues, dispatchTool_createIssue,
      dispatchTool_fileContent, key] <;>
    rfl

/-- Witness for C6 at a concrete HTTP 500 failure. -/
theorem c6_backend_failure_reported_witness :
    handleJsonRpcRequest (fun _ _ => .httpErr 500 (strL "Internal Server Error")) 3
        (callMsg (some (.num 2)) (some (.str (strL "github_get_repository")))
          (some { owner := some (.str (strL "acme")),
                  repo := some (.str (strL "widgets")) })) emptySt =
      (.ok ⟨strL "2.0", some (.num 2), none,
        some ⟨-32000, failMsg (.httpErr 500 (strL "Internal Server Error"))⟩⟩,
       emptySt, 1) :=
  (c6_backend_failure_reported (.httpErr 500 (strL "Internal Server Error"))
    (by decide) (strL "github_get_repository") (by decide) _ (some (.num 2)) 3).1

/-- Envelope invariant of the JSON-RPC handler: every reply it produces
carries protocol version `2.0` and the incoming message's id. -/
theorem handleJsonRpc_envelope (backend : Backend) (now : Nat) (msg : RpcMessage)
    (st : St) : ∀ resp st' n,
    handleJsonRpcRequest backend now msg st = (.ok resp, st', n) →
    resp.jsonrpc = strL "2.0" ∧ resp.id = msg.id := by
  intro resp st' n h
  unfold handleJsonRpcRequest at h
  split_ifs at h
  · injection h with h1 h2
    have := Except.ok.inj h1
    subst this
    exact ⟨rfl, rfl⟩
  · injection h with h1 h2
    have := Except.ok.inj h1
    subst this
    exact ⟨rfl, rfl⟩
  · split at h
    · injection h with h1 h2
      cases h1
    · split at h
      · injection h with h1 h2
        have := Except.ok.inj h1
        subst this
        exact ⟨rfl, rfl⟩
      · injection h with h1 h2
        have := Except.ok.inj h1
        subst this
        exact ⟨rfl, rfl⟩
  · injection h with h1 h2
    have := Except.ok.inj h1
    subst this
    exact ⟨rfl, rfl⟩

/-- C9: every reply of the JSON-RPC handler — result envelope or error
envelope — carries `jsonrpc` equal to `2.0` and `id` equal to the id of
the incoming message; the `POST /sse` wrapper preserves this even for
exceptions escaping the handler, so every response is correlated to its
originating request. -/
theorem c9_replies_correlated :
    (∀ (backend : Backend) (now : Nat) (msg : RpcMessage) (st : St)
       (resp : RpcResponse) (st' : St) (n : Nat),
      handleJsonRpcRequest backend now msg st = (.ok resp, st', n) →
      resp.jsonrpc = strL "2.0" ∧ resp.id = msg.id) ∧
    (∀ (backend : Backend) (now : Nat) (msg : RpcMessage) (st : St),
      (postSse backend now msg st).1.jsonrpc = strL "2.0" ∧
      (postSse backend now msg st).1.id = msg.id) := by
  refine ⟨fun backend now msg st => handleJsonRpc_envelope backend now msg st, ?_⟩
  intro backend now msg st
  unfold postSse
  rcases hh : handleJsonRpcRequest backend now msg st with ⟨r, st', n⟩
  cases r with
  | ok resp => exact handleJsonRpc_envelope backend now msg st resp st' n hh
  | error e => exact ⟨rfl, rfl⟩

/-- Message used by the C9 witness. -/
def c9Msg : RpcMessage := ⟨none, some (.num 5), some (.str (strL "initialize")), none⟩

/-- Witness for C9 at a concrete `initialize` exchange. -/
theorem c9_replies_correlated_witness :
    (⟨strL "2.0", some (.num 5),
      some (.initMeta (strL "2024-11-05") (strL "github-mcp-server") (strL "1.0.0")),
      none⟩ : RpcResponse).jsonrpc = strL "2.0" ∧
    (⟨strL "2.0", some (.num 5),
      some (.initMeta (strL "2024-11-05") (strL "github-mcp-server") (strL "1.0.0")),
      none⟩ : RpcResponse).id = c9Msg.id :=
  c9_replies_correlated.1 (fun _ _ => .ok .null) 0 c9Msg emptySt _ emptySt 0 rfl

/-- C10: a `github_get_file_content` call whose backend payload is not
of type `file` ends in the tool-level error `Path is not a file`, but
the payload was already written to the cache inside `makeRequest`
before the type check ran: the final state carries the new cache entry
despite the error outcome. -/
theorem c10_file_type_error_still_caches (backend : Backend) (a : Args)
    (id : Option Json) (now : Nat) (st : St) (d : Json) (t : Option Json)
    (hmiss : st.cache (cacheKey (fileContentEndpoint a) .get) = none)
    (hb : backend (fileContentEndpoint a) .get = .ok d)
    (ht : jsGet (some d) (strL "type") = .ok t)
    (hnf : ¬ t = some (.str (strL "file"))) :
    handleJsonRpcRequest backend now
        (callMsg id (some (.str (strL "github_get_file_content"))) (some a)) st =
      (.ok ⟨strL "2.0", id, none, some ⟨-32000, strL "Path is not a file"⟩⟩,
       ⟨cacheSet st.cache (cacheKey (fileContentEndpoint a) .get) ⟨d, now⟩⟩, 1) := by
  have hget : cacheGet st.cache (cacheKey (fileContentEndpoint a) .get) now = none := by
    simp [cacheGet, hmiss]
  rw [handleJsonRpc_toolsCall, dispatchTool_fileContent, makeRequest_miss_ok hget hb]
  have hfmt : formatFileContent a d = .error ⟨strL "Path is not a file"⟩ := by
    unfold formatFileContent
    rw [ht]
    exact if_neg hnf
  rw [show ((Except.ok d).bind (formatFileContent a)) = formatFileContent a d from rfl,
    hfmt]
  rfl

/-- Payload used by the C10 witness: a directory listing rather than a
file. -/
def c10Payload : Json := .obj (.cons (strL "type") (.str (strL "dir")) .nil)

/-- Arguments used by the C10 witness. -/
def c10Args : Args :=
  { owner := some (.str (strL "acme")), repo := some (.str (strL "widgets")),
    path := some (.str (strL "src")) }

/-- Witness for C10 at a concrete directory payload. -/
theorem c10_file_type_error_still_caches_witness :
    handleJsonRpcRequest (fun _ _ => .ok c10Payload) 0
        (callMsg (some (.num 4)) (some (.str (strL "github_get_file_content")))
          (some c10Args)) emptySt =
      (.ok ⟨strL "2.0", some (.num 4), none,
        some ⟨-32000, strL "Path is not a file"⟩⟩,
       ⟨cacheSet emptySt.cache (cacheKey (fileContentEndpoint c10Args) .get)
          ⟨c10Payload, 0⟩⟩, 1) :=
  c10_file_type_error_still_caches (fun _ _ => .ok c10Payload) c10Args
    (some (.num 4)) 0 emptySt c10Payload (some (.str (strL "dir")))
    rfl rfl rfl (by decide)

theorem dispatchTool_getRepo_noArgs (backend : Backend) (now : Nat) (st : St) :
    dispatchTool backend now (some (.str (strL "github_get_repository"))) none st
      = (.error (typeErrUndef (strL "owner")), st, 0) := rfl

theorem dispatchTool_listRepos_noArgs (backend : Backend) (now : Nat) (st : St) :
    dispatchTool backend now (some (.str (strL "github_list_repositories"))) none st
      = (.error (typeErrUndef (strL "per_page")), st, 0) := rfl

theorem dispatchTool_listIssues_noArgs (backend : Backend) (now : Nat) (st : St) :
    dispatchTool backend now (some (.str (strL "github_list_issues"))) none st
      = (.error (typeErrUndef (strL "owner")), st, 0) := rfl

theorem dispatchTool_createIssue_noArgs (backend : Backend) (now : Nat) (st : St) :
    dispatchTool backend now (some (.str (strL "github_create_issue"))) none st
      = (.error (typeErrUndef (strL "owner")), st, 0) := rfl

theorem dispatchTool_fileContent_noArgs (backend : Backend) (now : Nat) (st : St) :
    dispatchTool backend now (some (.str (strL "github_get_file_content"))) none st
      = (.error (typeErrUndef (strL "owner")), st, 0) := rfl

/-- Two dispatches of the same tool call within the TTL window, from a
backend-consistent cache and a succeeding backend: identical outcome,
backend reached at most once. -/
theorem dispatchTool_twice (backend : Backend) (st : St) (t1 t2 : Nat)
    (name : Option Json) (args : Option Args)
    (hcons : Consistent backend st.cache)
    (hsucc : ∀ e o, ∃ d, backend e o = .ok d)
    (hTTL : t2 - t1 < CACHE_DURATION) :
    (dispatchTool backend t1 name args st).1
      = (dispatchTool backend t2 name args
          (dispatchTool backend t1 name args st).2.1).1 ∧
    (dispatchTool backend t1 name args st).2.2
      + (dispatchTool backend t2 name args
          (dispatchTool backend t1 name args st).2.1).2.2 ≤ 1 := by
  by_cases h1 : name = some (.str (strL "github_get_repository"))
  · subst h1
    cases args with
    | none => simp [dispatchTool_getRepo_noArgs]
    | some a =>
        obtain ⟨d, hd⟩ := hsucc (getRepoEndpoint a) .get
        obtain ⟨hr1, hr2, hn⟩ := makeRequest_twice_ok hcons hd hTTL
        simp only [dispatchTool_getRepo]
        exact ⟨by rw [hr1, hr2], by simpa using hn⟩
  by_cases h2 : name = some (.str (strL "github_list_repositories"))
  · subst h2
    cases args with
    | none => simp [dispatchTool_listRepos_noArgs]
    | some a =>
        obtain ⟨d, hd⟩ := hsucc (listReposEndpoint a) .get
        obtain ⟨hr1, hr2, hn⟩ := makeRequest_twice_ok hcons hd hTTL
        simp only [dispatchTool_listRepos]
        exact ⟨by rw [hr1, hr2], by simpa using hn⟩
  by_cases h3 : name = some (.str (strL "github_list_issues"))
  · subst h3
    cases args with
    | none => simp [dispatchTool_listIssues_noArgs]
    | some a =>
        obtain ⟨d, hd⟩ := hsucc (listIssuesEndpoint a) .get
        obtain ⟨hr1, hr2, hn⟩ := makeRequest_twice_ok hcons hd hTTL
        simp only [dispatchTool_listIssues]
        exact ⟨by rw [hr1, hr2], by simpa using hn⟩
  by_cases h4 : name = some (.str (strL "github_create_issue"))
  · subst h4
    cases args with
    | none => simp [dispatchTool_createIssue_noArgs]
    | some a =>
        obtain ⟨d, hd⟩ := hsucc (createIssueEndpoint a) (.postJson (createIssueBody a))
        obtain ⟨hr1, hr2, hn⟩ := makeRequest_twice_ok hcons hd hTTL
        simp only [dispatchTool_createIssue]
        exact ⟨by rw [hr1, hr2], by simpa using hn⟩
  by_cases h5 : name = some (.str (strL "github_get_file_content"))
  · subst h5
    cases args with
    | none => simp [dispatchTool_fileContent_noArgs]
    | some a =>
        obtain ⟨d, hd⟩ := hsucc (fileContentEndpoint a) .get
        obtain ⟨hr1, hr2, hn⟩ := makeRequest_twice_ok hcons hd hTTL
        simp only [dispatchTool_fileContent]
        exact ⟨by rw [hr1, hr2], by simpa using hn⟩
  · have hu : ∀ s ∈ knownToolNames, name ≠ some (.str s) := by
      intro s hs
      simp only [knownToolNames, List.mem_cons, List.not_mem_nil, or_false] at hs
      rcases hs with rfl | rfl | rfl | rfl | rfl <;> assumption
    simp [dispatchTool_unknown backend t1 name args st hu,
      dispatchTool_unknown backend t2 name args st hu]

/-- Backend of the C5 counterexample: every request fails with HTTP
500. -/
def c5FailBackend : Backend := fun _ _ => .httpErr 500 (strL "Internal Server Error")

/-- Message of the C5 counterexample: a repository lookup with fixed
arguments. -/
def c5Msg : RpcMessage :=
  callMsg (some (.num 1)) (some (.str (strL "github_get_repository")))
    (some { owner := some (.str (strL "acme")), repo := some (.str (strL "widgets")) })

/-- C5, counterexample: when the backend fails, nothing is cached, so
two call-tool invocations with identical arguments five milliseconds
apart (well within the TTL window) each invoke the backend — two
invocations in total, contradicting the claimed `at most once`, and the
second call is not served from the cache. -/
theorem c5_counterexample :
    (handleJsonRpcRequest c5FailBackend 0 c5Msg emptySt).2.2 = 1 ∧
    (handleJsonRpcRequest c5FailBackend 5 c5Msg
        (handleJsonRpcRequest c5FailBackend 0 c5Msg emptySt).2.1).2.2 = 1 ∧
    ¬((handleJsonRpcRequest c5FailBackend 0 c5Msg emptySt).2.2
        + (handleJsonRpcRequest c5FailBackend 5 c5Msg
            (handleJsonRpcRequest c5FailBackend 0 c5Msg emptySt).2.1).2.2 ≤ 1) :=
  ⟨rfl, rfl, by decide⟩

/-- C5, amended: for every tool call (any name and arguments), two
invocations with identical arguments issued within the 60-second TTL
window, from a backend-consistent cache and with a succeeding backend,
yield an identical result and invoke the backend capability at most
once; when the backend fails, nothing is cached and each invocation
invokes the backend again. -/
theorem c5_amended_ttl_window (backend : Backend) (st : St) (t1 t2 : Nat)
    (id name : Option Json) (args : Option Args)
    (hcons : Consistent backend st.cache)
    (hsucc : ∀ e o, ∃ d, backend e o = .ok d)
    (hTTL : t2 - t1 < CACHE_DURATION) :
    (handleJsonRpcRequest backend t1 (callMsg id name args) st).1
      = (handleJsonRpcRequest backend t2 (callMsg id name args)
          (handleJsonRpcRequest backend t1 (callMsg id name args) st).2.1).1 ∧
    (handleJsonRpcRequest backend t1 (callMsg id name args) st).2.2
      + (handleJsonRpcRequest backend t2 (callMsg id name args)
          (handleJsonRpcRequest backend t1 (callMsg id name args) st).2.1).2.2 ≤ 1 := by
  obtain ⟨hres, hcnt⟩ := dispatchTool_twice backend st t1 t2 name args hcons hsucc hTTL
  simp only [handleJsonRpc_toolsCall, toolCallEnvelope_state]
  exact ⟨toolCallEnvelope_congr id _ _ hres,
    by rw [toolCallEnvelope_count, toolCallEnvelope_count]; exact hcnt⟩

/-- Witness for C5's amended statement: concrete repeated repository
lookup from the empty cache. -/
theorem c5_amended_ttl_window_witness :
    (handleJsonRpcRequest (fun _ _ => .ok .null) 0 c5Msg emptySt).1
      = (handleJsonRpcRequest (fun _ _ => .ok .null) 5 c5Msg
          (handleJsonRpcRequest (fun _ _ => .ok .null) 0 c5Msg emptySt).2.1).1 ∧
    (handleJsonRpcRequest (fun _ _ => .ok .null) 0 c5Msg emptySt).2.2
      + (handleJsonRpcRequest (fun _ _ => .ok .null) 5 c5Msg
          (handleJsonRpcRequest (fun _ _ => .ok .null) 0 c5Msg emptySt).2.1).2.2 ≤ 1 :=
  c5_amended_ttl_window (fun _ _ => .ok .null) emptySt 0 5 (some (.num 1))
    (some (.str (strL "github_get_repository")))
    (some { owner := some (.str (strL "acme")), repo := some (.str (strL "widgets")) })
    (consistent_empty _) (fun _ _ => ⟨.null, rfl⟩) (by decide)

/-- C8: mutating tool calls go through the same response cache.  From
an empty cache, a `github_create_issue` call (a backend POST) whose
creation succeeds performs one backend request; a second call-tool
invocation with identical arguments within the 60-second TTL window
performs no backend request at all and returns the identical (cached)
response of the first creation, so the backend POST — the issue
creation — happens only once. -/
theorem c8_create_issue_served_from_cache (backend : Backend) (t1 t2 : Nat)
    (id : Option Json) (a : Args) (d : Json)
    (hb : backend (createIssueEndpoint a) (.postJson (createIssueBody a)) = .ok d)
    (_h12 : t1 ≤ t2) (hTTL : t2 - t1 < CACHE_DURATION) :
    (handleJsonRpcRequest backend t1
        (callMsg id (some (.str (strL "github_create_issue"))) (some a))
        emptySt).2.2 = 1 ∧
    (handleJsonRpcRequest backend t2
        (callMsg id (some (.str (strL "github_create_issue"))) (some a))
        (handleJsonRpcRequest backend t1
          (callMsg id (some (.str (strL "github_create_issue"))) (some a))
          emptySt).2.1).2.2 = 0 ∧
    (handleJsonRpcRequest backend t2
        (callMsg id (some (.str (strL "github_create_issue"))) (some a))
        (handleJsonRpcRequest backend t1
          (callMsg id (some (.str (strL "github_create_issue"))) (some a))
          emptySt).2.1).1
      = (handleJsonRpcRequest backend t1
          (callMsg id (some (.str (strL "github_create_issue"))) (some a))
          emptySt).1 := by
  have h1 := @makeRequest_miss_ok backend t1 (createIssueEndpoint a)
    (.postJson (createIssueBody a)) emptySt d
    (cacheGet_empty (cacheKey (createIssueEndpoint a) (.postJson (createIssueBody a))) t1) hb
  have h2get : cacheGet (cacheSet emptySt.cache
      (cacheKey (createIssueEndpoint a) (.postJson (createIssueBody a))) ⟨d, t1⟩)
      (cacheKey (createIssueEndpoint a) (.postJson (createIssueBody a))) t2 = some d := by
    simp [cacheGet, cacheSet, cacheFresh, hTTL]
  have h2 := @makeRequest_hit backend t2 (createIssueEndpoint a)
    (.postJson (createIssueBody a))
    ⟨cacheSet emptySt.cache
      (cacheKey (createIssueEndpoint a) (.postJson (createIssueBody a))) ⟨d, t1⟩⟩ d h2get
  simp only [handleJsonRpc_toolsCall, dispatchTool_createIssue, h1, toolCallEnvelope_state]
  simp only [h2]
  refine ⟨?_, ?_, toolCallEnvelope_congr id _ _ rfl⟩ <;> rw [toolCallEnvelope_count]

/-- Witness for C8 at a concrete issue-creation exchange. -/
theorem c8_create_issue_served_from_cache_witness :
    (handleJsonRpcRequest (fun _ _ => .ok (.obj .nil)) 0
        (callMsg (some (.num 3)) (some (.str (strL "github_create_issue")))
          (some { owner := some (.str (strL "acme")),
                  repo := some (.str (strL "widgets")),
                  title := some (.str (strL "bug")) }))
        emptySt).2.2 = 1 ∧
    (handleJsonRpcRequest (fun _ _ => .ok (.obj .nil)) 10
        (callMsg (some (.num 3)) (some (.str (strL "github_create_issue")))
          (some { owner := some (.str (strL "acme")),
                  repo := some (.str (strL "widgets")),
                  title := some (.str (strL "bug")) }))
        (handleJsonRpcRequest (fun _ _ => .ok (.obj .nil)) 0
          (callMsg (some (.num 3)) (some (.str (strL "github_create_issue")))
            (some { owner := some (.str (strL "acme")),
                    repo := some (.str (strL "widgets")),
                    title := some (.str (strL "bug")) }))
          emptySt).2.1).2.2 = 0 ∧
    (handleJsonRpcRequest (fun _ _ => .ok (.obj .nil)) 10
        (callMsg (some (.num 3)) (some (.str (strL "github_create_issue")))
          (some { owner := some (.str (strL "acme")),
                  repo := some (.str (strL "widgets")),
                  title := some (.str (strL "bug")) }))
        (handleJsonRpcRequest (fun _ _ => .ok (.obj .nil)) 0
          (callMsg (some (.num 3)) (some (.str (strL "github_create_issue")))
            (some { owner := some (.str (strL "acme")),
                    repo := some (.str (strL "widgets")),
                    title := some (.str (strL "bug")) }))
          emptySt).2.1).1
      = (handleJsonRpcRequest (fun _ _ => .ok (.obj .nil)) 0
          (callMsg (some (.num 3)) (some (.str (strL "github_create_issue")))
            (some { owner := some (.str (strL "acme")),
                    repo := some (.str (strL "widgets")),
                    title := some (.str (strL "bug")) }))
          emptySt).1 :=
  c8_create_issue_served_from_cache (fun _ _ => .ok (.obj .nil)) 0 10
    (some (.num 3)) _ (.obj .nil) rfl (by decide) (by decide)

/-- Session deadness: the session's keepalive interval is cleared and
its id was allocated in the past (so it can never be re-issued). -/
def SseDead (sid : Nat) (s : SseState) : Prop :=
  sid ∉ s.timers ∧ sid < s.nextId

theorem sseStep_dead (port : List Char) {sid : Nat} {s : SseState} (ev : SseEv)
    (h : SseDead sid s) :
    SseDead sid (sseStep port s ev).1 ∧
      ∀ p, SseFrame.ping sid p ∉ (sseStep port s ev).2 := by
  obtain ⟨ht, hn⟩ := h
  cases ev with
  | opn =>
      refine ⟨⟨?_, by simp [sseStep]; omega⟩, ?_⟩
      · simp only [sseStep, List.mem_cons]
        rintro (rfl | hm)
        · omega
        · exact ht hm
      · intro p
        simp [sseStep]
  | tick sid' =>
      refine ⟨⟨ht, hn⟩, ?_⟩
      intro p hp
      by_cases hmem : sid' ∈ s.timers
      · simp only [sseStep, if_pos hmem, List.mem_singleton] at hp
        injection hp with hp1 hp2
        subst hp1
        exact ht hmem
      · simp [sseStep, hmem] at hp
  | close sid' =>
      refine ⟨⟨fun hm => ht (List.mem_of_mem_erase hm), hn⟩, ?_⟩
      intro p hp
      simp [sseStep] at hp

theorem sseRun_dead (port : List Char) {sid : Nat} {s : SseState}
    (h : SseDead sid s) (evs : List SseEv) :
    ∀ p, SseFrame.ping sid p ∉ (sseRun port s evs).2 := by
  induction evs generalizing s with
  | nil =>
      intro p hp
      simp [sseRun] at hp
  | cons ev evs ih =>
      intro p hp
      obtain ⟨hd, hfr⟩ := sseStep_dead port ev h
      rw [sseRun] at hp
      rcases List.mem_append.mp hp with hp1 | hp2
      · exact hfr p hp1
      · exact ih hd p hp2

/-- C7: the streaming-session lifecycle.  On connection open a fresh
identifier (never before issued) is generated, the session is
registered in the live set, its keepalive interval is armed, and
exactly one handshake frame is sent.  While the interval is armed, each
firing — every `KEEPALIVE_INTERVAL_MS = 30000` milliseconds — emits
exactly one keepalive frame.  After a disconnect is observed, the
identifier is removed from the live session set and the interval is
canceled at once, and no keepalive frame for that session is ever
emitted again, whatever events follow. -/
theorem c7_sse_session_lifecycle (port : List Char) (s : SseState) (sid : Nat)
    (evs : List SseEv) (hinv : SseInv s) (hsid : sid < s.nextId) :
    ((sseStep port s .opn).2 = [.handshake s.nextId (handshakePayload port)] ∧
      s.nextId ∉ s.sessions ∧
      s.nextId ∈ (sseStep port s .opn).1.sessions ∧
      s.nextId ∈ (sseStep port s .opn).1.timers) ∧
    (KEEPALIVE_INTERVAL_MS = 30000 ∧
      (sid ∈ s.timers → (sseStep port s (.tick sid)).2 = [.ping sid pingPayload])) ∧
    (sid ∉ (sseStep port s (.close sid)).1.sessions ∧
      sid ∉ (sseStep port s (.close sid)).1.timers ∧
      ∀ p, SseFrame.ping sid p
        ∉ (sseRun port (sseStep port s (.close sid)).1 evs).2) := by
  obtain ⟨hs, htm, hnds, hndt⟩ := hinv
  refine ⟨⟨rfl, ?_, by simp [sseStep], by simp [sseStep]⟩,
    ⟨rfl, fun hmem => by simp [sseStep, hmem]⟩, ?_, ?_, ?_⟩
  · intro hm
    exact absurd (hs _ hm) (by omega)
  · intro hm
    exact absurd hm (by
      simp only [sseStep]
      intro hm'
      exact (List.Nodup.mem_erase_iff hnds).mp hm' |>.1 rfl)
  · intro hm
    exact absurd hm (by
      simp only [sseStep]
      intro hm'
      exact (List.Nodup.mem_erase_iff hndt).mp hm' |>.1 rfl)
  · have hdead : SseDead sid (sseStep port s (.close sid)).1 := by
      refine ⟨?_, by simp [sseStep]; omega⟩
      simp only [sseStep]
      intro hm'
      exact (List.Nodup.mem_erase_iff hndt).mp hm' |>.1 rfl
    exact sseRun_dead port hdead evs

/-- Session-manager state of the C7 witness: one session opened from
the initial state. -/
def c7State : SseState := (sseStep (strL "3000") sseInit .opn).1

/-- Witness for C7 at a concrete one-session run. -/
theorem c7_sse_session_lifecycle_witness :
    ((sseStep (strL "3000") c7State .opn).2
        = [.handshake c7State.nextId (handshakePayload (strL "3000"))] ∧
      c7State.nextId ∉ c7State.sessions ∧
      c7State.nextId ∈ (sseStep (strL "3000") c7State .opn).1.sessions ∧
      c7State.nextId ∈ (sseStep (strL "3000") c7State .opn).1.timers) ∧
    (KEEPALIVE_INTERVAL_MS = 30000 ∧
      (0 ∈ c7State.timers →
        (sseStep (strL "3000") c7State (.tick 0)).2 = [.ping 0 pingPayload])) ∧
    (0 ∉ (sseStep (strL "3000") c7State (.close 0)).1.sessions ∧
      0 ∉ (sseStep (strL "3000") c7State (.close 0)).1.timers ∧
      ∀ p, SseFrame.ping 0 p
        ∉ (sseRun (strL "3000") (sseStep (strL "3000") c7State (.close 0)).1
            [.opn, .tick 0, .tick 1]).2) :=
  c7_sse_session_lifecycle (strL "3000") c7State 0 [.opn, .tick 0, .tick 1]
    ⟨by decide, by decide, by decide, by decide⟩ (by decide)

end McpServer
